import Mathlib

/-!
Shallow embedding of `src/modified-files/src/calendars/NepaliCalendar.ts`
(the Bikram Sambat / Nepali calendar converter), together with proofs of
the specified properties.

The source file contains two variants of the same module: one whose
month-length table is a base64-packed byte buffer (`VIKRAM_MONTH_DATA`)
and one whose table is a plain array of hex literals
(`ENCODED_MONTH_LENGTHS`).  All operations below are parameterized by the
decoded word table `w` and instantiated at both tables; the source names
(`vikramMonthLength`, `fromJulianDay`, `toJulianDay`, ...) denote the
packed-buffer instantiation, the `...Plain` names the plain-array one.

JS numbers are embedded as `Int` (all values involved are integral);
`Uint32Array` words are `Nat` below `2^32`.  Out-of-bounds typed-array
reads produce `undefined` in JS; where the source can perform such a read
this is modelled explicitly with `Option` (see `jsGe`).
-/

set_option maxRecDepth 40000

namespace BikramSamvat

/-- Failure modes of the calendar code, one per `throw new Error(...)` site
(`Invalid month`, `Invalid day`, `Year outside supported range` /
`No data for year`, `Date outside supported range`). -/
inductive CalendarError where
  | invalidMonth
  | invalidDay
  | yearOutOfRange
  | dateOutOfRange
deriving DecidableEq, Repr

/-- A `CalendarDate` as consumed and produced by the converter:
year, month, day as JS numbers (integers here). -/
structure NepaliDate where
  year : Int
  month : Int
  day : Int
deriving DecidableEq, Repr

deriving instance DecidableEq for Except

/-- `const NEPALI_EPOCH = 2419871` — Julian day of 1970 Baisakh 1. -/
def NEPALI_EPOCH : Int := 2419871

/-- `const VIKRAM_YEAR_ZERO = 1970` — first tabulated year. -/
def VIKRAM_YEAR_ZERO : Int := 1970

/-- `const VIKRAM_MONTH_DATA = '...'` — base64-packed month-length table. -/
def VIKRAM_MONTH_DATA : String := "uhpRALoXUQDuVpAA7VaEALoaUQD6GVEA7laQAO1WhAC6GlEA+hZRAO5WkADqSlEAuhpRAPoWUQDuVpAA6kpRALoaUQDuFlEA7laQAOoaUQC6GlEA7hZRAO5WhADqGlEAuhpRAO5WUADuVoQAuhpRALoaUQDuVpAA7VaEALoaUQD6FlEA7laQAO1WhAC6GlEA+hZRAO5WkADqSoEAuhpRAPoWUQDuVpAA6kpRALoaUQD6FlEA7laQAOpKUQC6GlEA7hZRAO5WhADqGlEAuhpRAO5WUADuVoQA6hpRALoaUQDuVpAA7VaEALoaUQC6F1EA7laQAO1WhAC6GlEA+hZRAO5WkADtSoEAuhpRAPoWUQDuVpAA6kpRALoaUQD6FlEA7laQAOpKUQC6GlEA7hZRAO5WkADqGlEAuhpRAO5WUADuVoQA6hpRALoaUQDuVlAA7laEALoaUQC6F1EA7laQAO1WhAC6GlEA+hZRAO5WkADtSoQAuhpRAPoWUQDuVpAA6kqBALoaUQD6FlEA7laQAOpKUQC6GlEA7hZRAO5WkADqGlEAuhpRAO5WUADuVoQA6hpRALoaUQDuVlAA7laEALoaUQC6GlEA7laQAO1WhAC6GlEA+hZRAO5WkADtVoQAuhpRAPoWUQDuVpAA6kqBALoaUQD6FlEA7laQAOpKUQC6GlEA+hZRAA=="

/-- Value of one base64 alphabet character, as `atob` reads it;
`=` padding (and any non-alphabet character) is `none`. -/
def b64Val (c : Char) : Option Nat :=
  let n := c.toNat
  if 65 ≤ n ∧ n ≤ 90 then some (n - 65)
  else if 97 ≤ n ∧ n ≤ 122 then some (n - 97 + 26)
  else if 48 ≤ n ∧ n ≤ 57 then some (n - 48 + 52)
  else if n = 43 then some 62
  else if n = 47 then some 63
  else none

/-- Reassemble `atob`'s output bytes from the stream of 6-bit values:
each group of four 6-bit values yields three bytes (big-endian within the
24-bit group); a trailing group of two or three values (from `==` / `=`
padding) yields one or two bytes. -/
def sextetsToBytes : List Nat → List Nat
  | a :: b :: c :: d :: rest =>
      (a * 4 + b / 16) :: ((b % 16) * 16 + c / 4) :: ((c % 4) * 64 + d) :: sextetsToBytes rest
  | [a, b] => [a * 4 + b / 16]
  | [a, b, c] => [a * 4 + b / 16, (b % 16) * 16 + c / 4]
  | _ => []

/-- `new Uint32Array(buffer)`: group consecutive bytes into 32-bit words,
little-endian (the byte order of every platform the library targets). -/
def bytesToWords : List Nat → List Nat
  | b0 :: b1 :: b2 :: b3 :: rest =>
      (b0 + b1 * 256 + b2 * 65536 + b3 * 16777216) :: bytesToWords rest
  | _ => []

/-- `VIKRAM_MONTHLENGTH = new Uint32Array(Uint8Array.from(atob(VIKRAM_MONTH_DATA),
c => c.charCodeAt(0)).buffer)` — the decoded per-year word table. -/
def VIKRAM_MONTHLENGTH : List Nat :=
  bytesToWords (sextetsToBytes (VIKRAM_MONTH_DATA.data.filterMap b64Val))

/-- `const ENCODED_MONTH_LENGTHS = [...]` — the plain-array variant's table
(hex literals, one word per year 1970–2099). -/
def ENCODED_MONTH_LENGTHS : List Nat := [
  0x511aba, 0x5117ba, 0x9056ee, 0x8456ed, 0x511aba, 0x5119fa, 0x9056ee, 0x8456ed, 0x511aba, 0x5116fa,
  0x9056ee, 0x514aea, 0x511aba, 0x5116fa, 0x9056ee, 0x514aea, 0x511aba, 0x5116ee, 0x9056ee, 0x511aea,
  0x511aba, 0x5116ee, 0x8456ee, 0x511aea, 0x511aba, 0x5056ee, 0x8456ee, 0x511aba, 0x511aba, 0x9056ee,
  0x8456ed, 0x511aba, 0x5116fa, 0x9056ee, 0x8456ed, 0x511aba, 0x5116fa, 0x9056ee, 0x814aea, 0x511aba,
  0x5116fa, 0x9056ee, 0x514aea, 0x511aba, 0x5116fa, 0x9056ee, 0x514aea, 0x511aba, 0x5116ee, 0x8456ee,
  0x511aea, 0x511aba, 0x5056ee, 0x8456ee, 0x511aea, 0x511aba, 0x9056ee, 0x8456ed, 0x511aba, 0x5117ba,
  0x9056ee, 0x8456ed, 0x511aba, 0x5116fa, 0x9056ee, 0x814aed, 0x511aba, 0x5116fa, 0x9056ee, 0x514aea,
  0x511aba, 0x5116fa, 0x9056ee, 0x514aea, 0x511aba, 0x5116ee, 0x9056ee, 0x511aea, 0x511aba, 0x5056ee,
  0x8456ee, 0x511aea, 0x511aba, 0x5056ee, 0x8456ee, 0x511aba, 0x5117ba, 0x9056ee, 0x8456ed, 0x511aba,
  0x5116fa, 0x9056ee, 0x844aed, 0x511aba, 0x5116fa, 0x9056ee, 0x814aea, 0x511aba, 0x5116fa, 0x9056ee,
  0x514aea, 0x511aba, 0x5116ee, 0x9056ee, 0x511aea, 0x511aba, 0x5056ee, 0x8456ee, 0x511aea, 0x511aba,
  0x5056ee, 0x8456ee, 0x511aba, 0x511aba, 0x9056ee, 0x8456ed, 0x511aba, 0x5116fa, 0x9056ee, 0x8456ed,
  0x511aba, 0x5116fa, 0x9056ee, 0x814aea, 0x511aba, 0x5116fa, 0x9056ee, 0x514aea, 0x511aba, 0x5116fa]

/-- The month-length formula `29 + ((delta >>> ((month - 1) << 1)) & 3)` on
word table `w`, for a year index `yi` with a table word and month `m ∈ [1,12]`
(the validated in-range uses in the source; callers establish the bounds). -/
def monthLen (w : List Nat) (yi m : Nat) : Nat :=
  29 + ((w.getD yi 0 >>> (2 * (m - 1))) &&& 3)

/-- `vikramMonthLength(year, month)` with its validation:
month outside `[1,12]` throws `Invalid month value`; a year whose table
lookup `w[year - VIKRAM_YEAR_ZERO]` is `undefined` (index outside
`[0, w.length)`) throws `No data for year`. -/
def vikramMonthLengthW (w : List Nat) (year month : Int) : Except CalendarError Nat :=
  if month < 1 ∨ month > 12 then .error .invalidMonth
  else if year < VIKRAM_YEAR_ZERO ∨ year ≥ VIKRAM_YEAR_ZERO + w.length then .error .yearOutOfRange
  else .ok (monthLen w (year - VIKRAM_YEAR_ZERO).toNat month.toNat)

/-- Sum of `monthLen w yi m` over `a ≤ m < a + n` (recursion on the count
`n` so that it evaluates by kernel reduction). -/
def sumLen (w : List Nat) (yi : Nat) : Nat → Nat → Nat
  | _, 0 => 0
  | a, n + 1 => monthLen w yi a + sumLen w yi (a + 1) n

/-- Sum of `monthLen w yi m` over `a ≤ m < b`: the value accumulated by the
source's `for (let m = a; m < b; m++)` month loops. -/
def sumFrom (w : List Nat) (yi a b : Nat) : Nat :=
  sumLen w yi a (b - a)

/-- Total days of the year at index `yi`: the inner constructor loop
`for (let i = 1; i <= 12; i++) yearStart += vikramMonthLength(year, i)`. -/
def yearLen (w : List Nat) (yi : Nat) : Nat :=
  sumFrom w yi 1 13

/-- Value of the constructor's accumulator `yearStart` on entry to
iteration `k` of the outer loop: total days in the first `k` tabulated years. -/
def cumDays (w : List Nat) : Nat → Nat
  | 0 => 0
  | k + 1 => cumDays w k + yearLen w k

/-- `VIKRAM_YEAR_START_TABLE` as built by the constructor:
`table[i] = yearStart` on entry to iteration `i`, i.e. `cumDays w i`,
for each of the `w.length` tabulated years. -/
def yearStartTable (w : List Nat) : List Nat :=
  (List.range w.length).map (cumDays w)

/-- The `while (low < high)` binary search of `fromJulianDay`:
narrow on `VIKRAM_YEAR_START_TABLE[mid] <= days`.  `fuel` is the loop
variant `high - low` (it strictly decreases each iteration), so the guard
`low < high`, never the fuel, terminates the loop. -/
def bsearchGo (w : List Nat) (days : Int) : Nat → Nat → Nat → Nat
  | 0, low, _ => low
  | fuel + 1, low, high =>
    if low < high then
      let mid := (low + high) / 2
      if ((yearStartTable w).getD mid 0 : Int) ≤ days then bsearchGo w days fuel (mid + 1) high
      else bsearchGo w days fuel low mid
    else low

def bsearch (w : List Nat) (days : Int) (low high : Nat) : Nat :=
  bsearchGo w days (high - low) low high

/-- The `while (month <= 12)` scan of `fromJulianDay`: starting from
`month`, subtract month lengths until the remaining `dayInMonth` fits.
`fuel` is the loop variant `13 - month`, so the guard `month <= 12`,
never the fuel, terminates the loop. -/
def monthScanGo (w : List Nat) (yi : Nat) : Nat → Nat → Int → Nat × Int
  | 0, month, dayInMonth => (month, dayInMonth)
  | fuel + 1, month, dayInMonth =>
    if month ≤ 12 then
      let daysInMonth := monthLen w yi month
      if dayInMonth ≤ daysInMonth then (month, dayInMonth)
      else monthScanGo w yi fuel (month + 1) (dayInMonth - daysInMonth)
    else (month, dayInMonth)

def monthScan (w : List Nat) (yi month : Nat) (dayInMonth : Int) : Nat × Int :=
  monthScanGo w yi (13 - month) month dayInMonth

/-- JS `x >= y` where `y` came from a typed-array read that may be out of
bounds: comparing with `undefined` is `false` (NaN comparison). -/
def jsGe (x : Int) : Option Nat → Bool
  | some v => decide ((v : Int) ≤ x)
  | none => false

/-- `fromJulianDay(jd)`.  Note the source's upper-bound test reads
`VIKRAM_YEAR_START_TABLE[yearCount]`, one past the end of the table
(the table has `yearCount` entries), so the read is `undefined` and the
comparison is modelled by `jsGe` on the `Option`-valued lookup. -/
def fromJulianDayW (w : List Nat) (jd : Int) : Except CalendarError NepaliDate :=
  let days := jd - NEPALI_EPOCH
  let yearCount := w.length
  if days < 0 ∨ jsGe days (yearStartTable w)[yearCount]? = true then
    .error .dateOutOfRange
  else
    let low := bsearch w days 0 yearCount
    let yearIndex := low - 1
    let year := VIKRAM_YEAR_ZERO + yearIndex
    let dayOfYear := days - ((yearStartTable w).getD yearIndex 0 : Int)
    let md := monthScan w yearIndex 1 (dayOfYear + 1)
    .ok ⟨year, md.1, md.2⟩

/-- `toJulianDay(date)`: validate year, month, day, then
`NEPALI_EPOCH + VIKRAM_YEAR_START_TABLE[year - VIKRAM_YEAR_ZERO]`
plus the month loop's sum plus `day - 1`. -/
def toJulianDayW (w : List Nat) (date : NepaliDate) : Except CalendarError Int :=
  if date.year < VIKRAM_YEAR_ZERO ∨ date.year ≥ VIKRAM_YEAR_ZERO + w.length then
    .error .yearOutOfRange
  else if date.month < 1 ∨ date.month > 12 then
    .error .invalidMonth
  else
    let yi := (date.year - VIKRAM_YEAR_ZERO).toNat
    let mn := date.month.toNat
    if date.day < 1 ∨ date.day > (monthLen w yi mn : Int) then
      .error .invalidDay
    else
      .ok (NEPALI_EPOCH + ((yearStartTable w).getD yi 0 : Int) + (sumFrom w yi 1 mn : Int)
            + (date.day - 1))

/-- `getDaysInMonth(date) = vikramMonthLength(date.year, date.month)`. -/
def getDaysInMonthW (w : List Nat) (date : NepaliDate) : Except CalendarError Nat :=
  vikramMonthLengthW w date.year date.month

/-- `getDaysInYear(date)`: range-check the year; the final tabulated year
sums its 12 months directly, any other year is a difference of adjacent
year-start table entries. -/
def getDaysInYearW (w : List Nat) (date : NepaliDate) : Except CalendarError Nat :=
  if date.year < VIKRAM_YEAR_ZERO ∨ date.year ≥ VIKRAM_YEAR_ZERO + w.length then
    .error .yearOutOfRange
  else
    let yi := (date.year - VIKRAM_YEAR_ZERO).toNat
    if date.year = VIKRAM_YEAR_ZERO + w.length - 1 then
      .ok (sumFrom w yi 1 13)
    else
      .ok ((yearStartTable w).getD (yi + 1) 0 - (yearStartTable w).getD yi 0)

/-- Packed-buffer variant instantiations (the first module in the file). -/
def vikramMonthLength : Int → Int → Except CalendarError Nat :=
  vikramMonthLengthW VIKRAM_MONTHLENGTH

def VIKRAM_YEAR_START_TABLE : List Nat := yearStartTable VIKRAM_MONTHLENGTH

def fromJulianDay : Int → Except CalendarError NepaliDate :=
  fromJulianDayW VIKRAM_MONTHLENGTH

def toJulianDay : NepaliDate → Except CalendarError Int :=
  toJulianDayW VIKRAM_MONTHLENGTH

def getDaysInMonth : NepaliDate → Except CalendarError Nat :=
  getDaysInMonthW VIKRAM_MONTHLENGTH

def getDaysInYear : NepaliDate → Except CalendarError Nat :=
  getDaysInYearW VIKRAM_MONTHLENGTH

/-- Plain-array variant instantiations (the second module in the file). -/
def vikramMonthLengthPlain : Int → Int → Except CalendarError Nat :=
  vikramMonthLengthW ENCODED_MONTH_LENGTHS

def fromJulianDayPlain : Int → Except CalendarError NepaliDate :=
  fromJulianDayW ENCODED_MONTH_LENGTHS

def toJulianDayPlain : NepaliDate → Except CalendarError Int :=
  toJulianDayW ENCODED_MONTH_LENGTHS

/-- A date the converter accepts: tabulated year, month `1..12`,
day within the month's tabulated length. -/
def ValidDate (d : NepaliDate) : Prop :=
  VIKRAM_YEAR_ZERO ≤ d.year ∧ d.year < VIKRAM_YEAR_ZERO + VIKRAM_MONTHLENGTH.length ∧
  1 ≤ d.month ∧ d.month ≤ 12 ∧
  1 ≤ d.day ∧
  d.day ≤ monthLen VIKRAM_MONTHLENGTH (d.year - VIKRAM_YEAR_ZERO).toNat d.month.toNat

instance : DecidablePred ValidDate := fun d => by
  unfold ValidDate; infer_instance

/-! ### Basic facts about the table codec arithmetic -/

lemma monthLen_lower (w : List Nat) (yi m : Nat) : 29 ≤ monthLen w yi m :=
  Nat.le_add_right 29 _

lemma monthLen_upper (w : List Nat) (yi m : Nat) : monthLen w yi m ≤ 32 :=
  Nat.add_le_add_left (Nat.and_le_right) 29

lemma sumFrom_of_ge (w : List Nat) (yi : Nat) {a b : Nat} (h : b ≤ a) :
    sumFrom w yi a b = 0 := by
  unfold sumFrom
  rw [Nat.sub_eq_zero_of_le h]
  rfl

lemma sumFrom_of_lt (w : List Nat) (yi : Nat) {a b : Nat} (h : a < b) :
    sumFrom w yi a b = monthLen w yi a + sumFrom w yi (a + 1) b := by
  unfold sumFrom
  have hb : b - a = (b - (a + 1)) + 1 := by omega
  rw [hb]
  rfl

lemma sumFrom_append (w : List Nat) (yi : Nat) :
    ∀ n a b c, b - a = n → a ≤ b → b ≤ c →
      sumFrom w yi a c = sumFrom w yi a b + sumFrom w yi b c := by
  intro n
  induction n with
  | zero =>
    intro a b c h hab _
    have hba : a = b := by omega
    subst hba
    rw [sumFrom_of_ge w yi (le_refl a), Nat.zero_add]
  | succ n ih =>
    intro a b c h hab hbc
    have hab' : a < b := by omega
    have hac : a < c := lt_of_lt_of_le hab' hbc
    rw [sumFrom_of_lt w yi hac, sumFrom_of_lt w yi hab',
      ih (a + 1) b c (by omega) (by omega) hbc]
    omega

lemma sumFrom_succ_right (w : List Nat) (yi : Nat) {a b : Nat} (h : a ≤ b) :
    sumFrom w yi a (b + 1) = sumFrom w yi a b + monthLen w yi b := by
  rw [sumFrom_append w yi (b - a) a b (b + 1) rfl h (Nat.le_succ b)]
  have hstep : sumFrom w yi b (b + 1) = monthLen w yi b := by
    rw [sumFrom_of_lt w yi (Nat.lt_succ_self b), sumFrom_of_ge w yi (le_refl (b + 1))]
    omega
  rw [hstep]

lemma sumFrom_mono_right (w : List Nat) (yi : Nat) {a b c : Nat} (hab : a ≤ b) (hbc : b ≤ c) :
    sumFrom w yi a b ≤ sumFrom w yi a c := by
  rw [sumFrom_append w yi (b - a) a b c rfl hab hbc]
  exact Nat.le_add_right _ _

lemma sumFrom_bounds (w : List Nat) (yi : Nat) :
    ∀ n a, 29 * n ≤ sumFrom w yi a (a + n) ∧ sumFrom w yi a (a + n) ≤ 32 * n := by
  intro n
  induction n with
  | zero =>
    intro a
    rw [Nat.add_zero, sumFrom_of_ge w yi (le_refl a)]
    omega
  | succ n ih =>
    intro a
    have ha : a < a + (n + 1) := by omega
    rw [sumFrom_of_lt w yi ha]
    have heq : a + (n + 1) = (a + 1) + n := by omega
    rw [heq]
    have h1 := ih (a + 1)
    have h2 := monthLen_lower w yi a
    have h3 := monthLen_upper w yi a
    omega

lemma sumFrom_eq_finsetSum (w : List Nat) (yi : Nat) :
    ∀ b a, sumFrom w yi a b = ∑ m ∈ Finset.Ico a b, monthLen w yi m := by
  intro b
  induction b with
  | zero =>
    intro a
    rw [sumFrom_of_ge w yi (Nat.zero_le a)]
    simp
  | succ b ih =>
    intro a
    by_cases hab : a ≤ b
    · rw [sumFrom_succ_right w yi hab, ih a, Finset.sum_Ico_succ_top hab]
    · rw [sumFrom_of_ge w yi (by omega)]
      rw [Finset.Ico_eq_empty (by omega)]
      simp

lemma yearLen_lower (w : List Nat) (yi : Nat) : 348 ≤ yearLen w yi := by
  have h := (sumFrom_bounds w yi 12 1).1
  rw [(by norm_num : 1 + 12 = 13)] at h
  unfold yearLen
  omega

lemma yearLen_upper (w : List Nat) (yi : Nat) : yearLen w yi ≤ 384 := by
  have h := (sumFrom_bounds w yi 12 1).2
  rw [(by norm_num : 1 + 12 = 13)] at h
  unfold yearLen
  omega

lemma cumDays_succ (w : List Nat) (k : Nat) :
    cumDays w (k + 1) = cumDays w k + yearLen w k := rfl

lemma cumDays_mono (w : List Nat) {j k : Nat} (h : j ≤ k) :
    cumDays w j ≤ cumDays w k := by
  induction h with
  | refl => exact le_refl _
  | step _ ih => exact le_trans ih (Nat.le_add_right _ _)

lemma cumDays_strict_mono (w : List Nat) {j k : Nat} (h : j < k) :
    cumDays w j < cumDays w k := by
  have h1 : cumDays w j < cumDays w (j + 1) := by
    rw [cumDays_succ]
    have := yearLen_lower w j
    omega
  exact lt_of_lt_of_le h1 (cumDays_mono w h)

lemma yearStartTable_length (w : List Nat) : (yearStartTable w).length = w.length := by
  simp [yearStartTable]

lemma yearStartTable_getD (w : List Nat) {i : Nat} (h : i < w.length) :
    (yearStartTable w).getD i 0 = cumDays w i := by
  unfold yearStartTable
  rw [List.getD_eq_getElem?_getD, List.getElem?_map, List.getElem?_range h]
  rfl

lemma yearStartTable_oob (w : List Nat) : (yearStartTable w)[w.length]? = none := by
  rw [List.getElem?_eq_none]
  rw [yearStartTable_length]

/-! ### Correctness of the binary search loop -/

lemma bsearchGo_spec (w : List Nat) (days : Int) :
    ∀ fuel low high, high ≤ w.length → low ≤ high → high - low ≤ fuel →
    (∀ i, i < low → (cumDays w i : Int) ≤ days) →
    (∀ i, high ≤ i → i < w.length → days < (cumDays w i : Int)) →
    low ≤ bsearchGo w days fuel low high ∧ bsearchGo w days fuel low high ≤ high ∧
    (∀ i, i < bsearchGo w days fuel low high → (cumDays w i : Int) ≤ days) ∧
    (∀ i, bsearchGo w days fuel low high ≤ i → i < w.length →
      days < (cumDays w i : Int)) := by
  intro fuel
  induction fuel with
  | zero =>
    intro low high _ hlh hf hlow hhigh
    have hle : low = high := by omega
    subst hle
    exact ⟨le_refl _, le_refl _, hlow, hhigh⟩
  | succ fuel ih =>
    intro low high hhn hlh hf hlow hhigh
    by_cases hlh' : low < high
    · have hmlow : low ≤ (low + high) / 2 := by omega
      have hmhigh : (low + high) / 2 < high := by omega
      have hmn : (low + high) / 2 < w.length := lt_of_lt_of_le hmhigh hhn
      simp only [bsearchGo, if_pos hlh', yearStartTable_getD w hmn]
      by_cases hcmp : (cumDays w ((low + high) / 2) : Int) ≤ days
      · rw [if_pos hcmp]
        have h1 : ∀ i, i < (low + high) / 2 + 1 → (cumDays w i : Int) ≤ days := by
          intro i hi
          have hm := cumDays_mono w (show i ≤ (low + high) / 2 by omega)
          have : (cumDays w i : Int) ≤ (cumDays w ((low + high) / 2) : Int) := by
            exact_mod_cast hm
          exact le_trans this hcmp
        obtain ⟨a, b, c, d⟩ := ih ((low + high) / 2 + 1) high hhn (by omega) (by omega) h1 hhigh
        exact ⟨by omega, b, c, d⟩
      · rw [if_neg hcmp]
        have h2 : ∀ i, (low + high) / 2 ≤ i → i < w.length → days < (cumDays w i : Int) := by
          intro i hi _
          have hm := cumDays_mono w hi
          have hm' : (cumDays w ((low + high) / 2) : Int) ≤ (cumDays w i : Int) := by
            exact_mod_cast hm
          omega
        obtain ⟨a, b, c, d⟩ := ih low ((low + high) / 2) (le_of_lt hmn) (by omega) (by omega)
          hlow h2
        exact ⟨a, by omega, c, d⟩
    · have hle : low = high := by omega
      simp only [bsearchGo, if_neg hlh']
      subst hle
      exact ⟨le_refl _, le_refl _, hlow, hhigh⟩

/-- The search of `fromJulianDay` (over the full table, `0 ≤ days`) returns
`yi + 1` where `yi` is the unique year index with
`cumDays yi ≤ days < cumDays (yi + 1)`. -/
lemma bsearch_locate (w : List Nat) (days : Int) (yi : Nat)
    (hyi : yi < w.length) (h1 : (cumDays w yi : Int) ≤ days)
    (h2 : days < (cumDays w (yi + 1) : Int)) :
    bsearch w days 0 w.length = yi + 1 := by
  unfold bsearch
  obtain ⟨_, hb, hc, hd⟩ := bsearchGo_spec w days (w.length - 0) 0 w.length (le_refl _)
    (Nat.zero_le _) (le_refl _) (by intro i hi; omega) (by intro i hi hin; omega)
  by_contra hne
  rcases Nat.lt_or_ge (bsearchGo w days (w.length - 0) 0 w.length) (yi + 1) with hlt | hge
  · exact absurd (hd yi (by omega) hyi) (not_lt.mpr h1)
  · have : (cumDays w (yi + 1) : Int) ≤ days := hc (yi + 1) (by omega)
    omega

/-! ### Correctness of the month scan loop -/

/-- Forward direction: starting the scan at month `j` with value
`sumFrom j mn + d` (where `1 ≤ d ≤ monthLen mn`, `j ≤ mn ≤ 12`) lands
exactly on `(mn, d)`. -/
lemma monthScanGo_exact (w : List Nat) (yi : Nat) :
    ∀ fuel j mn (d : Int), j ≤ mn → mn ≤ 12 → 13 - j ≤ fuel →
    1 ≤ d → d ≤ (monthLen w yi mn : Int) →
    monthScanGo w yi fuel j ((sumFrom w yi j mn : Int) + d) = (mn, d) := by
  intro fuel
  induction fuel with
  | zero => intro j mn d hj hmn hf _ _; omega
  | succ fuel ih =>
    intro j mn d hj hmn hf hd1 hd2
    have hj12 : j ≤ 12 := le_trans hj hmn
    rcases Nat.eq_or_lt_of_le hj with heq | hlt
    · subst heq
      rw [sumFrom_of_ge w yi (le_refl j)]
      simp only [monthScanGo, if_pos hj12]
      rw [if_pos (by push_cast; omega)]
      norm_num
    · have hstep := sumFrom_of_lt w yi hlt
      have hgt : ¬ ((sumFrom w yi j mn : Int) + d ≤ (monthLen w yi j : Int)) := by
        rw [hstep]
        have h0 : (0 : Int) ≤ (sumFrom w yi (j + 1) mn : Int) := by positivity
        push_cast
        omega
      simp only [monthScanGo, if_pos hj12]
      rw [if_neg hgt]
      have harg : (sumFrom w yi j mn : Int) + d - (monthLen w yi j : Int)
          = (sumFrom w yi (j + 1) mn : Int) + d := by
        rw [hstep]; push_cast; ring
      rw [harg]
      exact ih (j + 1) mn d hlt hmn (by omega) hd1 hd2

/-- Reverse direction: starting the scan at month `j` with any value
`1 ≤ v ≤ sumFrom j 13` decomposes `v` uniquely as `sumFrom j m0 + d` with
`j ≤ m0 ≤ 12` and `1 ≤ d ≤ monthLen m0`. -/
lemma monthScanGo_decompose (w : List Nat) (yi : Nat) :
    ∀ fuel j (v : Int), 1 ≤ j → j ≤ 12 → 13 - j ≤ fuel →
    1 ≤ v → v ≤ (sumFrom w yi j 13 : Int) →
    ∃ (m0 : Nat) (d : Int), monthScanGo w yi fuel j v = (m0, d) ∧ j ≤ m0 ∧ m0 ≤ 12 ∧
      1 ≤ d ∧ d ≤ (monthLen w yi m0 : Int) ∧ v = (sumFrom w yi j m0 : Int) + d := by
  intro fuel
  induction fuel with
  | zero => intro j v hj1 hj12 hf _ _; omega
  | succ fuel ih =>
    intro j v hj1 hj12 hf hv1 hv2
    simp only [monthScanGo, if_pos hj12]
    by_cases hfit : v ≤ (monthLen w yi j : Int)
    · rw [if_pos hfit]
      exact ⟨j, v, rfl, le_refl j, hj12, hv1, hfit, by
        rw [sumFrom_of_ge w yi (le_refl j)]; push_cast; ring⟩
    · rw [if_neg hfit]
      have hj12' : j < 12 := by
        by_contra hge
        have hj12eq : j = 12 := by omega
        subst hj12eq
        have : sumFrom w yi 12 13 = monthLen w yi 12 := by
          rw [sumFrom_of_lt w yi (by norm_num), sumFrom_of_ge w yi (le_refl 13)]
          omega
        rw [this] at hv2
        omega
      have hsplit : (sumFrom w yi j 13 : Int)
          = (monthLen w yi j : Int) + (sumFrom w yi (j + 1) 13 : Int) := by
        rw [sumFrom_of_lt w yi (show j < 13 by omega)]; push_cast; ring
      obtain ⟨m0, d, heq, hm1, hm2, hd1, hd2, hdec⟩ := ih (j + 1)
        (v - (monthLen w yi j : Int)) (by omega) (by omega) (by omega) (by omega)
        (by omega)
      refine ⟨m0, d, heq, by omega, hm2, hd1, hd2, ?_⟩
      have : (sumFrom w yi j m0 : Int)
          = (monthLen w yi j : Int) + (sumFrom w yi (j + 1) m0 : Int) := by
        rw [sumFrom_of_lt w yi (show j < m0 by omega)]; push_cast; ring
      omega

/-! ### Characterization of `toJulianDay` and `fromJulianDay` -/

lemma toJulianDayW_yearErr (w : List Nat) (d : NepaliDate)
    (h : d.year < VIKRAM_YEAR_ZERO ∨ d.year ≥ VIKRAM_YEAR_ZERO + w.length) :
    toJulianDayW w d = .error .yearOutOfRange := by
  unfold toJulianDayW
  rw [if_pos h]

lemma toJulianDayW_monthErr (w : List Nat) (d : NepaliDate)
    (hy1 : VIKRAM_YEAR_ZERO ≤ d.year) (hy2 : d.year < VIKRAM_YEAR_ZERO + w.length)
    (hm : d.month < 1 ∨ d.month > 12) :
    toJulianDayW w d = .error .invalidMonth := by
  unfold toJulianDayW
  rw [if_neg (by omega), if_pos hm]

lemma toJulianDayW_dayErr (w : List Nat) (d : NepaliDate)
    (hy1 : VIKRAM_YEAR_ZERO ≤ d.year) (hy2 : d.year < VIKRAM_YEAR_ZERO + w.length)
    (hm1 : 1 ≤ d.month) (hm2 : d.month ≤ 12)
    (hd : d.day < 1 ∨ d.day >
      (monthLen w (d.year - VIKRAM_YEAR_ZERO).toNat d.month.toNat : Int)) :
    toJulianDayW w d = .error .invalidDay := by
  unfold toJulianDayW
  rw [if_neg (by omega), if_neg (by omega), if_pos hd]

lemma toJulianDayW_ok (w : List Nat) (d : NepaliDate)
    (hy1 : VIKRAM_YEAR_ZERO ≤ d.year) (hy2 : d.year < VIKRAM_YEAR_ZERO + w.length)
    (hm1 : 1 ≤ d.month) (hm2 : d.month ≤ 12)
    (hd1 : 1 ≤ d.day)
    (hd2 : d.day ≤ (monthLen w (d.year - VIKRAM_YEAR_ZERO).toNat d.month.toNat : Int)) :
    toJulianDayW w d = .ok (NEPALI_EPOCH
      + (cumDays w (d.year - VIKRAM_YEAR_ZERO).toNat : Int)
      + (sumFrom w (d.year - VIKRAM_YEAR_ZERO).toNat 1 d.month.toNat : Int)
      + (d.day - 1)) := by
  have hyi : (d.year - VIKRAM_YEAR_ZERO).toNat < w.length := by omega
  unfold toJulianDayW
  rw [if_neg (by omega), if_neg (by omega), if_neg (by omega),
    yearStartTable_getD w hyi]

lemma fromJulianDayW_low (w : List Nat) (jd : Int) (h : jd - NEPALI_EPOCH < 0) :
    fromJulianDayW w jd = .error .dateOutOfRange := by
  unfold fromJulianDayW
  rw [if_pos (Or.inl h)]

lemma fromJulianDayW_ok (w : List Nat) (jd : Int) (h : 0 ≤ jd - NEPALI_EPOCH) :
    fromJulianDayW w jd = .ok
      ⟨VIKRAM_YEAR_ZERO + ((bsearch w (jd - NEPALI_EPOCH) 0 w.length - 1 : Nat) : Int),
       ((monthScan w (bsearch w (jd - NEPALI_EPOCH) 0 w.length - 1) 1
         ((jd - NEPALI_EPOCH) - ((yearStartTable w).getD
           (bsearch w (jd - NEPALI_EPOCH) 0 w.length - 1) 0 : Int) + 1)).1 : Int),
       (monthScan w (bsearch w (jd - NEPALI_EPOCH) 0 w.length - 1) 1
         ((jd - NEPALI_EPOCH) - ((yearStartTable w).getD
           (bsearch w (jd - NEPALI_EPOCH) 0 w.length - 1) 0 : Int) + 1)).2⟩ := by
  simp only [fromJulianDayW, yearStartTable_oob w, jsGe]
  rw [if_neg (by simp; omega)]

/-! ### Round trips, generic in the word table -/

/-- A valid date maps to a JDN and back to itself. -/
lemma roundTrip_to_from (w : List Nat) (d : NepaliDate)
    (hy1 : VIKRAM_YEAR_ZERO ≤ d.year) (hy2 : d.year < VIKRAM_YEAR_ZERO + w.length)
    (hm1 : 1 ≤ d.month) (hm2 : d.month ≤ 12)
    (hd1 : 1 ≤ d.day)
    (hd2 : d.day ≤ (monthLen w (d.year - VIKRAM_YEAR_ZERO).toNat d.month.toNat : Int)) :
    ∃ jd : Int, toJulianDayW w d = .ok jd ∧ fromJulianDayW w jd = .ok d := by
  have hok := toJulianDayW_ok w d hy1 hy2 hm1 hm2 hd1 hd2
  obtain ⟨y, m, dy⟩ := d
  simp only at hy1 hy2 hm1 hm2 hd1 hd2 hok
  have hyi : (y - VIKRAM_YEAR_ZERO).toNat < w.length := by omega
  set yi := (y - VIKRAM_YEAR_ZERO).toNat with hyidef
  set mn := m.toNat with hmndef
  have hmn1 : 1 ≤ mn := by omega
  have hmn2 : mn ≤ 12 := by omega
  refine ⟨NEPALI_EPOCH + (cumDays w yi : Int) + (sumFrom w yi 1 mn : Int) + (dy - 1),
    hok, ?_⟩
  set jd := NEPALI_EPOCH + (cumDays w yi : Int) + (sumFrom w yi 1 mn : Int) + (dy - 1)
    with hjd
  have hc2 : (0 : Int) ≤ sumFrom w yi 1 mn := by positivity
  have hc1 : (0 : Int) ≤ cumDays w yi := by positivity
  have h0 : 0 ≤ jd - NEPALI_EPOCH := by omega
  rw [fromJulianDayW_ok w jd h0]
  have hlow : (cumDays w yi : Int) ≤ jd - NEPALI_EPOCH := by omega
  have hsum : sumFrom w yi 1 (mn + 1) = sumFrom w yi 1 mn + monthLen w yi mn :=
    sumFrom_succ_right w yi hmn1
  have hsum2 : sumFrom w yi 1 (mn + 1) ≤ sumFrom w yi 1 13 :=
    sumFrom_mono_right w yi (by omega) (by omega)
  have hhigh : jd - NEPALI_EPOCH < (cumDays w (yi + 1) : Int) := by
    rw [cumDays_succ]
    unfold yearLen
    push_cast
    omega
  rw [bsearch_locate w (jd - NEPALI_EPOCH) yi hyi hlow hhigh]
  simp only [Nat.add_sub_cancel]
  rw [yearStartTable_getD w hyi]
  have hscanArg : jd - NEPALI_EPOCH - (cumDays w yi : Int) + 1
      = (sumFrom w yi 1 mn : Int) + dy := by omega
  rw [hscanArg]
  unfold monthScan
  rw [monthScanGo_exact w yi (13 - 1) 1 mn dy hmn1 hmn2 (by omega) hd1 hd2]
  simp only [Except.ok.injEq, NepaliDate.mk.injEq]
  refine ⟨by omega, by omega, trivial⟩

/-- Any JDN in the supported range maps to a valid date and back to itself. -/
lemma roundTrip_from_to (w : List Nat) (jd : Int)
    (h1 : NEPALI_EPOCH ≤ jd) (h2 : jd < NEPALI_EPOCH + (cumDays w w.length : Int)) :
    ∃ d : NepaliDate, fromJulianDayW w jd = .ok d ∧
      (VIKRAM_YEAR_ZERO ≤ d.year ∧ d.year < VIKRAM_YEAR_ZERO + w.length ∧
        1 ≤ d.month ∧ d.month ≤ 12 ∧ 1 ≤ d.day ∧
        d.day ≤ (monthLen w (d.year - VIKRAM_YEAR_ZERO).toNat d.month.toNat : Int)) ∧
      toJulianDayW w d = .ok jd := by
  have h0 : 0 ≤ jd - NEPALI_EPOCH := by omega
  have hn : 0 < w.length := by
    by_contra hz
    have hz' : w.length = 0 := by omega
    rw [hz'] at h2
    simp only [cumDays] at h2
    push_cast at h2
    omega
  obtain ⟨ha, hb, hc, hd⟩ := bsearchGo_spec w (jd - NEPALI_EPOCH) (w.length - 0) 0 w.length
    (le_refl _) (Nat.zero_le _) (le_refl _) (by intro i hi; omega)
    (by intro i hi hin; omega)
  set r := bsearchGo w (jd - NEPALI_EPOCH) (w.length - 0) 0 w.length with hr
  have hcum0 : cumDays w 0 = 0 := rfl
  have hr1 : 1 ≤ r := by
    by_contra hr0
    have hr0' : r = 0 := by omega
    have hgot := hd 0 (by omega) hn
    rw [hcum0] at hgot
    push_cast at hgot
    omega
  set yi := r - 1 with hyidef
  have hyin : yi < w.length := by omega
  have hlow : (cumDays w yi : Int) ≤ jd - NEPALI_EPOCH := hc yi (by omega)
  have hhigh : jd - NEPALI_EPOCH < (cumDays w (yi + 1) : Int) := by
    rcases Nat.lt_or_ge r w.length with hlt | hge
    · have hgot := hd r (le_refl r) hlt
      have hry : yi + 1 = r := by omega
      rw [hry]
      exact hgot
    · have hry : yi + 1 = w.length := by omega
      rw [hry]
      omega
  have hylen : (cumDays w (yi + 1) : Int)
      = (cumDays w yi : Int) + (sumFrom w yi 1 13 : Int) := by
    rw [cumDays_succ]
    unfold yearLen
    push_cast
    ring
  obtain ⟨m0, dd, hscan, hm01, hm02, hdd1, hdd2, hdec⟩ := monthScanGo_decompose w yi
    (13 - 1) 1 (jd - NEPALI_EPOCH - (cumDays w yi : Int) + 1) (le_refl 1)
    (by norm_num) (le_refl _) (by omega) (by omega)
  have e1 : ((VIKRAM_YEAR_ZERO + (yi : Int)) - VIKRAM_YEAR_ZERO).toNat = yi := by omega
  have e2 : ((m0 : Int)).toNat = m0 := by omega
  refine ⟨⟨VIKRAM_YEAR_ZERO + (yi : Int), (m0 : Int), dd⟩, ?_, ?_, ?_⟩
  · rw [fromJulianDayW_ok w jd h0]
    unfold bsearch
    rw [← hr, ← hyidef, yearStartTable_getD w hyin]
    unfold monthScan
    rw [hscan]
  · refine ⟨by show VIKRAM_YEAR_ZERO ≤ VIKRAM_YEAR_ZERO + (yi : Int); omega,
      by show VIKRAM_YEAR_ZERO + (yi : Int) < VIKRAM_YEAR_ZERO + (w.length : Int); omega,
      by show (1 : Int) ≤ (m0 : Int); omega,
      by show (m0 : Int) ≤ 12; omega,
      hdd1, ?_⟩
    show dd ≤ (monthLen w ((VIKRAM_YEAR_ZERO + (yi : Int)) - VIKRAM_YEAR_ZERO).toNat
      ((m0 : Int)).toNat : Int)
    rw [e1, e2]
    exact hdd2
  · rw [toJulianDayW_ok w ⟨VIKRAM_YEAR_ZERO + (yi : Int), (m0 : Int), dd⟩
      (by show VIKRAM_YEAR_ZERO ≤ VIKRAM_YEAR_ZERO + (yi : Int); omega)
      (by show VIKRAM_YEAR_ZERO + (yi : Int) < VIKRAM_YEAR_ZERO + (w.length : Int); omega)
      (by show (1 : Int) ≤ (m0 : Int); omega)
      (by show (m0 : Int) ≤ 12; omega)
      hdd1
      (by show dd ≤ (monthLen w ((VIKRAM_YEAR_ZERO + (yi : Int))
            - VIKRAM_YEAR_ZERO).toNat ((m0 : Int)).toNat : Int)
          rw [e1, e2]
          exact hdd2)]
    simp only [e1, e2, Except.ok.injEq]
    omega

/-- `toJulianDay` is strictly increasing in lexicographic
(year, month, day) order on valid dates, generic in the table. -/
lemma toJulianDayW_strictMono (w : List Nat) (d1 d2 : NepaliDate)
    (h1y1 : VIKRAM_YEAR_ZERO ≤ d1.year) (h1y2 : d1.year < VIKRAM_YEAR_ZERO + w.length)
    (h1m1 : 1 ≤ d1.month) (h1m2 : d1.month ≤ 12)
    (h1d1 : 1 ≤ d1.day)
    (h1d2 : d1.day ≤ (monthLen w (d1.year - VIKRAM_YEAR_ZERO).toNat d1.month.toNat : Int))
    (h2y1 : VIKRAM_YEAR_ZERO ≤ d2.year) (h2y2 : d2.year < VIKRAM_YEAR_ZERO + w.length)
    (h2m1 : 1 ≤ d2.month) (h2m2 : d2.month ≤ 12)
    (h2d1 : 1 ≤ d2.day)
    (h2d2 : d2.day ≤ (monthLen w (d2.year - VIKRAM_YEAR_ZERO).toNat d2.month.toNat : Int))
    (hlex : d1.year < d2.year ∨ (d1.year = d2.year ∧ (d1.month < d2.month ∨
      (d1.month = d2.month ∧ d1.day < d2.day))))
    (j1 j2 : Int) (hj1 : toJulianDayW w d1 = .ok j1) (hj2 : toJulianDayW w d2 = .ok j2) :
    j1 < j2 := by
  rw [toJulianDayW_ok w d1 h1y1 h1y2 h1m1 h1m2 h1d1 h1d2] at hj1
  rw [toJulianDayW_ok w d2 h2y1 h2y2 h2m1 h2m2 h2d1 h2d2] at hj2
  simp only [Except.ok.injEq] at hj1 hj2
  obtain ⟨y1, m1, dy1⟩ := d1
  obtain ⟨y2, m2, dy2⟩ := d2
  simp only at h1y1 h1y2 h1m1 h1m2 h1d1 h1d2 h2y1 h2y2 h2m1 h2m2 h2d1 h2d2 hlex hj1 hj2
  rcases hlex with hy | ⟨hy, hrest⟩
  · -- strictly earlier year: jd1 stays below the start of year 2
    have hyi : (y1 - VIKRAM_YEAR_ZERO).toNat + 1 ≤ (y2 - VIKRAM_YEAR_ZERO).toNat := by
      omega
    have hcum : cumDays w ((y1 - VIKRAM_YEAR_ZERO).toNat + 1)
        ≤ cumDays w ((y2 - VIKRAM_YEAR_ZERO).toNat) := cumDays_mono w hyi
    have hcums : cumDays w ((y1 - VIKRAM_YEAR_ZERO).toNat + 1)
        = cumDays w ((y1 - VIKRAM_YEAR_ZERO).toNat)
          + sumFrom w ((y1 - VIKRAM_YEAR_ZERO).toNat) 1 13 := cumDays_succ w _
    have hs1p : sumFrom w ((y1 - VIKRAM_YEAR_ZERO).toNat) 1 (m1.toNat + 1)
        = sumFrom w ((y1 - VIKRAM_YEAR_ZERO).toNat) 1 m1.toNat
          + monthLen w ((y1 - VIKRAM_YEAR_ZERO).toNat) m1.toNat :=
      sumFrom_succ_right w _ (by omega)
    have hs1le : sumFrom w ((y1 - VIKRAM_YEAR_ZERO).toNat) 1 (m1.toNat + 1)
        ≤ sumFrom w ((y1 - VIKRAM_YEAR_ZERO).toNat) 1 13 :=
      sumFrom_mono_right w _ (by omega) (by omega)
    omega
  · subst hy
    rcases hrest with hm | ⟨hm, hd⟩
    · -- same year, strictly earlier month
      have hmn : m1.toNat + 1 ≤ m2.toNat := by omega
      have hs1p : sumFrom w ((y1 - VIKRAM_YEAR_ZERO).toNat) 1 (m1.toNat + 1)
          = sumFrom w ((y1 - VIKRAM_YEAR_ZERO).toNat) 1 m1.toNat
            + monthLen w ((y1 - VIKRAM_YEAR_ZERO).toNat) m1.toNat :=
        sumFrom_succ_right w _ (by omega)
      have hs1le : sumFrom w ((y1 - VIKRAM_YEAR_ZERO).toNat) 1 (m1.toNat + 1)
          ≤ sumFrom w ((y1 - VIKRAM_YEAR_ZERO).toNat) 1 m2.toNat :=
        sumFrom_mono_right w _ (by omega) hmn
      omega
    · -- same year and month, strictly earlier day
      subst hm
      omega

/-! ### Characterization of `vikramMonthLength` and `getDaysInYear` -/

lemma vikramMonthLengthW_monthErr (w : List Nat) (year month : Int)
    (hm : month < 1 ∨ month > 12) :
    vikramMonthLengthW w year month = .error .invalidMonth := by
  unfold vikramMonthLengthW
  rw [if_pos hm]

lemma vikramMonthLengthW_yearErr (w : List Nat) (year month : Int)
    (hm1 : 1 ≤ month) (hm2 : month ≤ 12)
    (hy : year < VIKRAM_YEAR_ZERO ∨ year ≥ VIKRAM_YEAR_ZERO + w.length) :
    vikramMonthLengthW w year month = .error .yearOutOfRange := by
  unfold vikramMonthLengthW
  rw [if_neg (by omega), if_pos hy]

lemma vikramMonthLengthW_ok (w : List Nat) (year month : Int)
    (hm1 : 1 ≤ month) (hm2 : month ≤ 12)
    (hy1 : VIKRAM_YEAR_ZERO ≤ year) (hy2 : year < VIKRAM_YEAR_ZERO + w.length) :
    vikramMonthLengthW w year month
      = .ok (monthLen w (year - VIKRAM_YEAR_ZERO).toNat month.toNat) := by
  unfold vikramMonthLengthW
  rw [if_neg (by omega), if_neg (by omega)]

lemma getDaysInYearW_yearErr (w : List Nat) (d : NepaliDate)
    (hy : d.year < VIKRAM_YEAR_ZERO ∨ d.year ≥ VIKRAM_YEAR_ZERO + w.length) :
    getDaysInYearW w d = .error .yearOutOfRange := by
  unfold getDaysInYearW
  rw [if_pos hy]

lemma getDaysInYearW_ok (w : List Nat) (d : NepaliDate)
    (hy1 : VIKRAM_YEAR_ZERO ≤ d.year) (hy2 : d.year < VIKRAM_YEAR_ZERO + w.length) :
    getDaysInYearW w d = .ok (yearLen w (d.year - VIKRAM_YEAR_ZERO).toNat) := by
  simp only [getDaysInYearW]
  rw [if_neg (by omega)]
  by_cases hfin : d.year = VIKRAM_YEAR_ZERO + w.length - 1
  · rw [if_pos hfin]
    rfl
  · rw [if_neg hfin]
    have hyi1 : (d.year - VIKRAM_YEAR_ZERO).toNat + 1 < w.length := by omega
    rw [yearStartTable_getD w hyi1,
      yearStartTable_getD w (show (d.year - VIKRAM_YEAR_ZERO).toNat < w.length by omega),
      cumDays_succ]
    simp only [Except.ok.injEq]
    omega

/-- The conjunction of branch facts of `getDaysInYear`: the non-final year
is a difference of adjacent year-start entries; the final year is the
direct 12-month sum. -/
lemma getDaysInYearW_branches (w : List Nat) (d : NepaliDate)
    (hy1 : VIKRAM_YEAR_ZERO ≤ d.year) (hy2 : d.year < VIKRAM_YEAR_ZERO + w.length) :
    (d.year ≠ VIKRAM_YEAR_ZERO + w.length - 1 →
      getDaysInYearW w d = .ok ((yearStartTable w).getD ((d.year - VIKRAM_YEAR_ZERO).toNat + 1) 0
        - (yearStartTable w).getD (d.year - VIKRAM_YEAR_ZERO).toNat 0)) ∧
    (d.year = VIKRAM_YEAR_ZERO + w.length - 1 →
      getDaysInYearW w d = .ok (sumFrom w (d.year - VIKRAM_YEAR_ZERO).toNat 1 13)) := by
  constructor
  · intro hfin
    simp only [getDaysInYearW]
    rw [if_neg (by omega), if_neg hfin]
  · intro hfin
    simp only [getDaysInYearW]
    rw [if_neg (by omega), if_pos hfin]

/-- The 12-month sum written as a `Finset` sum over months `1..12`. -/
lemma yearLen_eq_finsetIcc (w : List Nat) (yi : Nat) :
    yearLen w yi = ∑ m ∈ Finset.Icc 1 12, monthLen w yi m := by
  unfold yearLen
  rw [sumFrom_eq_finsetSum, ← Nat.Ico_succ_right]

/-- Recurrence of the year-start index: each entry is the previous entry
plus the 12 tabulated month lengths of the previous year. -/
lemma yearStartTable_recurrence (w : List Nat) {i : Nat} (h1 : 1 ≤ i) (h2 : i < w.length) :
    (yearStartTable w).getD i 0 = (yearStartTable w).getD (i - 1) 0
      + ∑ m ∈ Finset.Icc 1 12, monthLen w (i - 1) m := by
  obtain ⟨k, rfl⟩ : ∃ k, i = k + 1 := ⟨i - 1, by omega⟩
  rw [yearStartTable_getD w h2, yearStartTable_getD w (by omega), cumDays_succ]
  simp only [Nat.add_sub_cancel]
  rw [yearLen_eq_finsetIcc]

/-! ### The specified properties -/

/-- C1: Round-trip exactness.  Every valid tabulated date maps through
`toJulianDay` to a JDN and back to itself via `fromJulianDay`; and every
integer JDN in `[NEPALI_EPOCH, NEPALI_EPOCH + totalDaysInTable)`, where
`totalDaysInTable = cumDays VIKRAM_MONTHLENGTH VIKRAM_MONTHLENGTH.length`
is the sum of the lengths of all tabulated years, maps through
`fromJulianDay` to a date and back to itself via `toJulianDay`. -/
theorem C1_round_trip_exact :
    (∀ d : NepaliDate, ValidDate d →
      ∃ jd : Int, toJulianDay d = .ok jd ∧ fromJulianDay jd = .ok d) ∧
    (∀ jd : Int, NEPALI_EPOCH ≤ jd →
      jd < NEPALI_EPOCH + (cumDays VIKRAM_MONTHLENGTH VIKRAM_MONTHLENGTH.length : Int) →
      ∃ d : NepaliDate, fromJulianDay jd = .ok d ∧ toJulianDay d = .ok jd) := by
  constructor
  · intro d hv
    obtain ⟨hy1, hy2, hm1, hm2, hd1, hd2⟩ := hv
    exact roundTrip_to_from VIKRAM_MONTHLENGTH d hy1 hy2 hm1 hm2 hd1 hd2
  · intro jd hj1 hj2
    obtain ⟨d, hfrom, _, hto⟩ := roundTrip_from_to VIKRAM_MONTHLENGTH jd hj1 hj2
    exact ⟨d, hfrom, hto⟩

/-- Witness for C1 at a concrete date and a concrete JDN. -/
theorem C1_round_trip_exact_witness :
    (ValidDate ⟨2050, 5, 10⟩ ∧
      ∃ jd : Int, toJulianDay ⟨2050, 5, 10⟩ = .ok jd ∧ fromJulianDay jd = .ok ⟨2050, 5, 10⟩) ∧
    (NEPALI_EPOCH ≤ (2430000 : Int) ∧
      (2430000 : Int) < NEPALI_EPOCH + (cumDays VIKRAM_MONTHLENGTH VIKRAM_MONTHLENGTH.length : Int) ∧
      ∃ d : NepaliDate, fromJulianDay 2430000 = .ok d ∧ toJulianDay d = .ok 2430000) :=
  ⟨⟨by decide, C1_round_trip_exact.1 ⟨2050, 5, 10⟩ (by decide)⟩,
   ⟨by decide, by decide, C1_round_trip_exact.2 2430000 (by decide) (by decide)⟩⟩

/-- C2 (code evaluation): at the epoch the conversions behave as specified
(`fromJulianDay NEPALI_EPOCH = 1970-01-01`, `toJulianDay 1970-01-01 =
NEPALI_EPOCH`, and `NEPALI_EPOCH - 1` fails with `dateOutOfRange`), but at
the first day past the final tabulated year (`NEPALI_EPOCH +
totalDaysInTable = 2419871 + 47483 = 2467354`) `fromJulianDay` does NOT
fail: the upper-bound guard reads `VIKRAM_YEAR_START_TABLE[yearCount]`,
one past the end of the table, so the comparison with `undefined` is
false and the function falls through the month loop, returning the
out-of-model date year 2099, month 13, day 1. -/
theorem C2_epoch_boundary_behavior :
    fromJulianDay 2419871 = .ok ⟨1970, 1, 1⟩ ∧
    toJulianDay ⟨1970, 1, 1⟩ = .ok 2419871 ∧
    fromJulianDay 2419870 = .error .dateOutOfRange ∧
    cumDays VIKRAM_MONTHLENGTH VIKRAM_MONTHLENGTH.length = 47483 ∧
    fromJulianDay 2467354 = .ok ⟨2099, 13, 1⟩ := by
  refine ⟨by decide, by decide, by decide, by decide, by decide⟩

/-- C3: `toJulianDay` is strictly increasing in lexicographic
(year, month, day) order over valid tabulated dates. -/
theorem C3_strict_monotonicity :
    ∀ d1 d2 : NepaliDate, ValidDate d1 → ValidDate d2 →
    (d1.year < d2.year ∨ (d1.year = d2.year ∧ (d1.month < d2.month ∨
      (d1.month = d2.month ∧ d1.day < d2.day)))) →
    ∀ j1 j2 : Int, toJulianDay d1 = .ok j1 → toJulianDay d2 = .ok j2 → j1 < j2 := by
  intro d1 d2 hv1 hv2 hlex j1 j2 hj1 hj2
  obtain ⟨h1a, h1b, h1c, h1d, h1e, h1f⟩ := hv1
  obtain ⟨h2a, h2b, h2c, h2d, h2e, h2f⟩ := hv2
  exact toJulianDayW_strictMono VIKRAM_MONTHLENGTH d1 d2 h1a h1b h1c h1d h1e h1f
    h2a h2b h2c h2d h2e h2f hlex j1 j2 hj1 hj2

/-- Witness for C3 at a concrete lexicographically ordered pair spanning a
year boundary. -/
theorem C3_strict_monotonicity_witness :
    ValidDate ⟨1980, 12, 30⟩ ∧ ValidDate ⟨1981, 1, 1⟩ ∧
    toJulianDay ⟨1980, 12, 30⟩ = .ok 2423887 ∧ toJulianDay ⟨1981, 1, 1⟩ = .ok 2423889 ∧
    (2423887 : Int) < 2423889 :=
  ⟨by decide, by decide, by decide, by decide,
    C3_strict_monotonicity ⟨1980, 12, 30⟩ ⟨1981, 1, 1⟩ (by decide) (by decide)
      (by decide) 2423887 2423889 (by decide) (by decide)⟩

/-- C4: input validation of `toJulianDay`: year outside the tabulated span
fails with `yearOutOfRange`; a year in span with month outside `[1,12]`
fails with `invalidMonth`; valid year and month with day outside
`[1, monthLen]` fails with `invalidDay`; and every remaining (valid)
input succeeds. -/
theorem C4_toJulianDay_validation :
    ∀ d : NepaliDate,
      ((d.year < VIKRAM_YEAR_ZERO ∨ d.year ≥ VIKRAM_YEAR_ZERO + VIKRAM_MONTHLENGTH.length) →
        toJulianDay d = .error .yearOutOfRange) ∧
      (VIKRAM_YEAR_ZERO ≤ d.year → d.year < VIKRAM_YEAR_ZERO + VIKRAM_MONTHLENGTH.length →
        (d.month < 1 ∨ d.month > 12) → toJulianDay d = .error .invalidMonth) ∧
      (VIKRAM_YEAR_ZERO ≤ d.year → d.year < VIKRAM_YEAR_ZERO + VIKRAM_MONTHLENGTH.length →
        1 ≤ d.month → d.month ≤ 12 →
        (d.day < 1 ∨ d.day > (monthLen VIKRAM_MONTHLENGTH
          (d.year - VIKRAM_YEAR_ZERO).toNat d.month.toNat : Int)) →
        toJulianDay d = .error .invalidDay) ∧
      (ValidDate d → ∃ jd : Int, toJulianDay d = .ok jd) := by
  intro d
  refine ⟨fun h => toJulianDayW_yearErr VIKRAM_MONTHLENGTH d h,
    fun h1 h2 h3 => toJulianDayW_monthErr VIKRAM_MONTHLENGTH d h1 h2 h3,
    fun h1 h2 h3 h4 h5 => toJulianDayW_dayErr VIKRAM_MONTHLENGTH d h1 h2 h3 h4 h5,
    fun hv => ?_⟩
  obtain ⟨hy1, hy2, hm1, hm2, hd1, hd2⟩ := hv
  exact ⟨_, toJulianDayW_ok VIKRAM_MONTHLENGTH d hy1 hy2 hm1 hm2 hd1 hd2⟩

/-- Witness for C4 at the spec's concrete invalid inputs (and a day
violation and a success). -/
theorem C4_toJulianDay_validation_witness :
    toJulianDay ⟨1969, 1, 1⟩ = .error .yearOutOfRange ∧
    toJulianDay ⟨1970, 13, 1⟩ = .error .invalidMonth ∧
    toJulianDay ⟨1970, 1, 32⟩ = .error .invalidDay ∧
    ∃ jd : Int, toJulianDay ⟨1970, 1, 31⟩ = .ok jd :=
  ⟨(C4_toJulianDay_validation ⟨1969, 1, 1⟩).1 (by decide),
   (C4_toJulianDay_validation ⟨1970, 13, 1⟩).2.1 (by decide) (by decide) (by decide),
   (C4_toJulianDay_validation ⟨1970, 1, 32⟩).2.2.1 (by decide) (by decide) (by decide)
     (by decide) (by decide),
   (C4_toJulianDay_validation ⟨1970, 1, 31⟩).2.2.2 (by decide)⟩

/-- C5: `vikramMonthLength` fails with `invalidMonth` whenever the month is
outside `[1,12]` (checked first); fails with `yearOutOfRange` when there is
no decoded table word for the year; otherwise returns
`29 + ((word[year - VIKRAM_YEAR_ZERO] >>> (2*(month-1))) &&& 3)`. -/
theorem C5_month_length_lookup :
    ∀ year month : Int,
      ((month < 1 ∨ month > 12) →
        vikramMonthLength year month = .error .invalidMonth) ∧
      (1 ≤ month → month ≤ 12 →
        (year < VIKRAM_YEAR_ZERO ∨ year ≥ VIKRAM_YEAR_ZERO + VIKRAM_MONTHLENGTH.length) →
        vikramMonthLength year month = .error .yearOutOfRange) ∧
      (1 ≤ month → month ≤ 12 →
        VIKRAM_YEAR_ZERO ≤ year → year < VIKRAM_YEAR_ZERO + VIKRAM_MONTHLENGTH.length →
        vikramMonthLength year month = .ok (29 +
          ((VIKRAM_MONTHLENGTH.getD (year - VIKRAM_YEAR_ZERO).toNat 0
            >>> (2 * (month.toNat - 1))) &&& 3))) := by
  intro year month
  refine ⟨fun h => vikramMonthLengthW_monthErr VIKRAM_MONTHLENGTH year month h,
    fun h1 h2 h3 => vikramMonthLengthW_yearErr VIKRAM_MONTHLENGTH year month h1 h2 h3,
    fun h1 h2 h3 h4 => vikramMonthLengthW_ok VIKRAM_MONTHLENGTH year month h1 h2 h3 h4⟩

/-- Witness for C5 at concrete inputs for each of the three cases. -/
theorem C5_month_length_lookup_witness :
    vikramMonthLength 1970 0 = .error .invalidMonth ∧
    vikramMonthLength 1969 5 = .error .yearOutOfRange ∧
    vikramMonthLength 1970 1 = .ok (29 +
      ((VIKRAM_MONTHLENGTH.getD 0 0 >>> 0) &&& 3)) :=
  ⟨(C5_month_length_lookup 1970 0).1 (by decide),
   (C5_month_length_lookup 1969 5).2.1 (by decide) (by decide) (by decide),
   (C5_month_length_lookup 1970 1).2.2 (by decide) (by decide) (by decide) (by decide)⟩

/-- C6: the year-start index has exactly one entry per tabulated year,
starts at 0, satisfies the cumulative recurrence
`index[i] = index[i-1] + Σ_{m=1..12} monthLen (i-1) m`, and is strictly
increasing. -/
theorem C6_year_start_index_invariant :
    VIKRAM_YEAR_START_TABLE.length = VIKRAM_MONTHLENGTH.length ∧
    VIKRAM_YEAR_START_TABLE.getD 0 0 = 0 ∧
    (∀ i : Nat, 1 ≤ i → i < VIKRAM_YEAR_START_TABLE.length →
      VIKRAM_YEAR_START_TABLE.getD i 0 = VIKRAM_YEAR_START_TABLE.getD (i - 1) 0
        + ∑ m ∈ Finset.Icc 1 12, monthLen VIKRAM_MONTHLENGTH (i - 1) m) ∧
    (∀ i j : Nat, i < j → j < VIKRAM_YEAR_START_TABLE.length →
      VIKRAM_YEAR_START_TABLE.getD i 0 < VIKRAM_YEAR_START_TABLE.getD j 0) := by
  have htbl : VIKRAM_YEAR_START_TABLE = yearStartTable VIKRAM_MONTHLENGTH := rfl
  refine ⟨yearStartTable_length VIKRAM_MONTHLENGTH, ?_, ?_, ?_⟩
  · have h0 : 0 < VIKRAM_MONTHLENGTH.length := by decide
    rw [htbl, yearStartTable_getD VIKRAM_MONTHLENGTH h0]
    rfl
  · intro i h1 h2
    rw [htbl, yearStartTable_length] at h2
    rw [htbl]
    exact yearStartTable_recurrence VIKRAM_MONTHLENGTH h1 h2
  · intro i j hij hj
    rw [htbl, yearStartTable_length] at hj
    rw [htbl, yearStartTable_getD VIKRAM_MONTHLENGTH (by omega),
      yearStartTable_getD VIKRAM_MONTHLENGTH hj]
    exact cumDays_strict_mono VIKRAM_MONTHLENGTH hij

/-- Witness for C6 at concrete indices. -/
theorem C6_year_start_index_invariant_witness :
    VIKRAM_YEAR_START_TABLE.getD 1 0 = VIKRAM_YEAR_START_TABLE.getD 0 0
      + ∑ m ∈ Finset.Icc 1 12, monthLen VIKRAM_MONTHLENGTH 0 m ∧
    VIKRAM_YEAR_START_TABLE.getD 0 0 < VIKRAM_YEAR_START_TABLE.getD 1 0 :=
  ⟨C6_year_start_index_invariant.2.2.1 1 (by decide) (by decide),
   C6_year_start_index_invariant.2.2.2 0 1 (by decide) (by decide)⟩

/-- C7 (counterexample to the claim as stated): `getDaysInMonth` for year
1970, month 1 equals the decoded table value `29 + (word & 3)` — but that
value is 31, not 29 or 30. -/
theorem C7_decoded_slot_counterexample :
    getDaysInMonth ⟨1970, 1, 1⟩ = .ok (29 + (VIKRAM_MONTHLENGTH.getD 0 0 &&& 3)) ∧
    ¬ (29 + (VIKRAM_MONTHLENGTH.getD 0 0 &&& 3) = 29 ∨
       29 + (VIKRAM_MONTHLENGTH.getD 0 0 &&& 3) = 30) := by
  refine ⟨by decide, by decide⟩

/-- C7 (amended): `getDaysInMonth` for year 1970, month 1 equals the value
decoded from the table word for 1970 via `29 + (word &&& 3)`, and that
value is 31 (within the representable range `[29, 32]`). -/
theorem C7_decoded_slot :
    getDaysInMonth ⟨1970, 1, 1⟩ = .ok (29 + (VIKRAM_MONTHLENGTH.getD 0 0 &&& 3)) ∧
    29 + (VIKRAM_MONTHLENGTH.getD 0 0 &&& 3) = 31 := by
  refine ⟨by decide, by decide⟩

/-- C8: `getDaysInYear` for a tabulated year returns the sum of that year's
12 tabulated month lengths — as a difference of adjacent year-start index
entries for a non-final year, and as the direct 12-month sum for the final
tabulated year; a year outside the span fails with `yearOutOfRange`. -/
theorem C8_days_in_year :
    ∀ d : NepaliDate,
      (VIKRAM_YEAR_ZERO ≤ d.year → d.year < VIKRAM_YEAR_ZERO + VIKRAM_MONTHLENGTH.length →
        getDaysInYear d = .ok (∑ m ∈ Finset.Icc 1 12,
          monthLen VIKRAM_MONTHLENGTH (d.year - VIKRAM_YEAR_ZERO).toNat m) ∧
        (d.year ≠ VIKRAM_YEAR_ZERO + VIKRAM_MONTHLENGTH.length - 1 →
          getDaysInYear d = .ok (VIKRAM_YEAR_START_TABLE.getD
              ((d.year - VIKRAM_YEAR_ZERO).toNat + 1) 0
            - VIKRAM_YEAR_START_TABLE.getD (d.year - VIKRAM_YEAR_ZERO).toNat 0)) ∧
        (d.year = VIKRAM_YEAR_ZERO + VIKRAM_MONTHLENGTH.length - 1 →
          getDaysInYear d = .ok (sumFrom VIKRAM_MONTHLENGTH
            (d.year - VIKRAM_YEAR_ZERO).toNat 1 13))) ∧
      ((d.year < VIKRAM_YEAR_ZERO ∨ d.year ≥ VIKRAM_YEAR_ZERO + VIKRAM_MONTHLENGTH.length) →
        getDaysInYear d = .error .yearOutOfRange) := by
  intro d
  refine ⟨fun h1 h2 => ⟨?_, (getDaysInYearW_branches VIKRAM_MONTHLENGTH d h1 h2).1,
    (getDaysInYearW_branches VIKRAM_MONTHLENGTH d h1 h2).2⟩,
    fun h => getDaysInYearW_yearErr VIKRAM_MONTHLENGTH d h⟩
  rw [show getDaysInYear d = getDaysInYearW VIKRAM_MONTHLENGTH d from rfl,
    getDaysInYearW_ok VIKRAM_MONTHLENGTH d h1 h2, yearLen_eq_finsetIcc]

/-- Witness for C8 at a non-final year, the final year, and an
out-of-range year. -/
theorem C8_days_in_year_witness :
    getDaysInYear ⟨1970, 1, 1⟩ = .ok (∑ m ∈ Finset.Icc 1 12,
      monthLen VIKRAM_MONTHLENGTH 0 m) ∧
    getDaysInYear ⟨1970, 1, 1⟩ = .ok (VIKRAM_YEAR_START_TABLE.getD 1 0
      - VIKRAM_YEAR_START_TABLE.getD 0 0) ∧
    getDaysInYear ⟨2099, 1, 1⟩ = .ok (sumFrom VIKRAM_MONTHLENGTH 129 1 13) ∧
    getDaysInYear ⟨1969, 1, 1⟩ = .error .yearOutOfRange :=
  ⟨((C8_days_in_year ⟨1970, 1, 1⟩).1 (by decide) (by decide)).1,
   ((C8_days_in_year ⟨1970, 1, 1⟩).1 (by decide) (by decide)).2.1 (by decide),
   ((C8_days_in_year ⟨2099, 1, 1⟩).1 (by decide) (by decide)).2.2 (by decide),
   (C8_days_in_year ⟨1969, 1, 1⟩).2 (by decide)⟩

/-- C9: the packed-buffer encoding (base64 string decoded through a byte
buffer into little-endian 32-bit words) and the plain-array encoding (hex
literals) decode to the same per-year word table, so `vikramMonthLength`,
`fromJulianDay` and `toJulianDay` agree between the two source variants on
every input. -/
theorem C9_variant_equivalence :
    VIKRAM_MONTHLENGTH = ENCODED_MONTH_LENGTHS ∧
    (∀ year month : Int, vikramMonthLength year month = vikramMonthLengthPlain year month) ∧
    (∀ jd : Int, fromJulianDay jd = fromJulianDayPlain jd) ∧
    (∀ d : NepaliDate, toJulianDay d = toJulianDayPlain d) := by
  have h : VIKRAM_MONTHLENGTH = ENCODED_MONTH_LENGTHS := by decide
  refine ⟨h, ?_, ?_, ?_⟩
  · intro year month
    rw [show vikramMonthLength = vikramMonthLengthW VIKRAM_MONTHLENGTH from rfl,
      show vikramMonthLengthPlain = vikramMonthLengthW ENCODED_MONTH_LENGTHS from rfl, h]
  · intro jd
    rw [show fromJulianDay = fromJulianDayW VIKRAM_MONTHLENGTH from rfl,
      show fromJulianDayPlain = fromJulianDayW ENCODED_MONTH_LENGTHS from rfl, h]
  · intro d
    rw [show toJulianDay = toJulianDayW VIKRAM_MONTHLENGTH from rfl,
      show toJulianDayPlain = toJulianDayW ENCODED_MONTH_LENGTHS from rfl, h]

/-- C10: every tabulated (year, month) decodes to a month length in
`[29, 32]` (the per-month delta is masked to 2 bits), and consequently
every tabulated year has between 348 and 384 days. -/
theorem C10_month_length_bounds :
    (∀ year month : Int,
      VIKRAM_YEAR_ZERO ≤ year → year < VIKRAM_YEAR_ZERO + VIKRAM_MONTHLENGTH.length →
      1 ≤ month → month ≤ 12 →
      ∃ v : Nat, vikramMonthLength year month = .ok v ∧ 29 ≤ v ∧ v ≤ 32) ∧
    (∀ d : NepaliDate,
      VIKRAM_YEAR_ZERO ≤ d.year → d.year < VIKRAM_YEAR_ZERO + VIKRAM_MONTHLENGTH.length →
      ∃ v : Nat, getDaysInYear d = .ok v ∧ 348 ≤ v ∧ v ≤ 384) := by
  constructor
  · intro year month hy1 hy2 hm1 hm2
    exact ⟨_, vikramMonthLengthW_ok VIKRAM_MONTHLENGTH year month hm1 hm2 hy1 hy2,
      monthLen_lower VIKRAM_MONTHLENGTH _ _, monthLen_upper VIKRAM_MONTHLENGTH _ _⟩
  · intro d hy1 hy2
    exact ⟨_, getDaysInYearW_ok VIKRAM_MONTHLENGTH d hy1 hy2,
      yearLen_lower VIKRAM_MONTHLENGTH _, yearLen_upper VIKRAM_MONTHLENGTH _⟩

/-- Witness for C10 at a concrete year and month. -/
theorem C10_month_length_bounds_witness :
    (∃ v : Nat, vikramMonthLength 1970 1 = .ok v ∧ 29 ≤ v ∧ v ≤ 32) ∧
    (∃ v : Nat, getDaysInYear ⟨1970, 1, 1⟩ = .ok v ∧ 348 ≤ v ∧ v ≤ 384) :=
  ⟨C10_month_length_bounds.1 1970 1 (by decide) (by decide) (by decide) (by decide),
   C10_month_length_bounds.2 ⟨1970, 1, 1⟩ (by decide) (by decide)⟩

end BikramSamvat
